import Mathlib

/-!
Shallow embedding of `ubuntu_server_triage.py` (ubuntu-server-triage).

The script has two pure cores:
* the `Task` view class deriving display fields from a Launchpad task's
  free-text title and rendering a fixed-width line (`compose_pretty`);
* the date-range logic (`check_dates`) and the range-by-subtraction bug
  search (`modified_bugs`).

Network calls (`searchTasks`, `connect_launchpad`) are external
collaborators; their results enter the model as explicit input lists.
-/

namespace UST

/-! ## Python string primitives used by the script -/

/-- Python `s.split(sep)` for a single-character separator, on the character
list of the string.  Python keeps empty fields: `'a  b'.split(' ') ==
['a', '', 'b']` and `''.split(' ') == ['']`. -/
def splitOnChar (sep : Char) : List Char → List (List Char)
  | [] => [[]]
  | c :: cs =>
    match splitOnChar sep cs with
    | [] => [[]]
    | t :: ts => if c = sep then [] :: t :: ts else (c :: t) :: ts

/-- Python `title.split(' ')` as a list of strings. -/
def pySplitSpace (s : String) : List String :=
  (splitOnChar ' ' s.data).map (fun cs => String.mk cs)

/-- Python `s.replace(old, '')` for a single-character `old`: every
occurrence of the character is removed. -/
def pyRemoveChar (old : Char) (s : String) : String :=
  String.mk (s.data.filter (fun c => c ≠ old))

/-- Python `'%-<width>s' % s`: left-justify `s` in a field of `width`
characters, padding with spaces; a longer string is left unchanged. -/
def ljust (width : Nat) (s : String) : String :=
  s ++ String.mk (List.replicate (width - s.length) ' ')

/-! ## The Task view (class `Task`)

A `Task` wraps a launchpadlib object exposing `title` and `status`, plus the
exogenous `subscribed` flag.  The derived fields are pure functions of the
title, so we embed them as functions `String → String`.  Python raises
`IndexError` when a positional token is missing; the claims only evaluate
these fields on titles where the token exists, and we totalise the list
index with `""` (`List.getD`). -/

/-- `Task.LONG_URL_ROOT`. -/
def LONG_URL_ROOT : String := "https://bugs.launchpad.net/bugs/"

/-- `Task.SHORTLINK_ROOT`. -/
def SHORTLINK_ROOT : String := "LP: #"

/-- `Task.BUG_NUMBER_LENGTH`. -/
def BUG_NUMBER_LENGTH : Nat := 7

/-- `Task.number`: `self.title.split(' ')[1].replace('#', '')`. -/
def task_number (title : String) : String :=
  pyRemoveChar '#' ((pySplitSpace title).getD 1 "")

/-- `Task.src`: `self.title.split(' ')[3]`. -/
def task_src (title : String) : String :=
  (pySplitSpace title).getD 3 ""

/-- `Task.short_title`: `' '.join(self.title.split(' ')[5:]).replace('"', '')`. -/
def task_short_title (title : String) : String :=
  pyRemoveChar '"' (String.intercalate " " ((pySplitSpace title).drop 5))

/-- `Task.url`: `self.LONG_URL_ROOT + self.number`. -/
def task_url (title : String) : String :=
  LONG_URL_ROOT ++ task_number title

/-- `Task.shortlink`: `self.SHORTLINK_ROOT + self.number`. -/
def task_shortlink (title : String) : String :=
  SHORTLINK_ROOT ++ task_number title

/-- `Task.compose_pretty(shortlinks)`: renders
`'%s - %-16s %-16s - %s' % (bug_url, marker(status), [src], short_title)`
where `bug_url` is the shortlink left-justified to
`BUG_NUMBER_LENGTH + len(SHORTLINK_ROOT)` characters (or the URL
left-justified to `BUG_NUMBER_LENGTH + len(LONG_URL_ROOT)`), and the marker
is `'*'` when `subscribed` is truthy, else `''`. -/
def compose_pretty (title status : String) (subscribed : Bool)
    (shortlinks : Bool) : String :=
  let bug_url :=
    if shortlinks then
      ljust (BUG_NUMBER_LENGTH + SHORTLINK_ROOT.length) (task_shortlink title)
    else
      ljust (BUG_NUMBER_LENGTH + LONG_URL_ROOT.length) (task_url title)
  bug_url ++ " - " ++
    ljust 16 ((if subscribed then "*" else "") ++ "(" ++ status ++ ")") ++
    " " ++ ljust 16 ("[" ++ task_src title ++ "]") ++ " - " ++
    task_short_title title

/-! ## Calendar dates (`datetime.date` fragment used by the script)

The script uses: `datetime.now().date()`, `timedelta(days = 1)` and
`timedelta(days = 2)` subtraction, `date.weekday()`, `strftime('%Y-%m-%d')`,
`strptime(s, '%Y-%m-%d')`, one-day addition, and `datetime.min`.  Time of
day never influences any returned date string, so a calendar date
`(year, month, day)` suffices; "now" enters the model as an explicit
`today : Date` parameter. -/

structure Date where
  year : Nat
  month : Nat
  day : Nat
deriving DecidableEq, Repr

/-- Gregorian leap-year rule, as in `datetime`. -/
def isLeap (y : Nat) : Bool :=
  y % 4 = 0 && (y % 100 ≠ 0 || y % 400 = 0)

/-- Days in a month of a given year. -/
def daysInMonth (y m : Nat) : Nat :=
  if m = 2 then (if isLeap y then 29 else 28)
  else if m = 4 ∨ m = 6 ∨ m = 9 ∨ m = 11 then 30
  else 31

/-- `d + timedelta(days=1)` on dates. -/
def addOneDay (d : Date) : Date :=
  if d.day < daysInMonth d.year d.month then ⟨d.year, d.month, d.day + 1⟩
  else if d.month < 12 then ⟨d.year, d.month + 1, 1⟩
  else ⟨d.year + 1, 1, 1⟩

/-- `d - timedelta(days=1)` on dates. -/
def subOneDay (d : Date) : Date :=
  if 1 < d.day then ⟨d.year, d.month, d.day - 1⟩
  else if 1 < d.month then ⟨d.year, d.month - 1, daysInMonth d.year (d.month - 1)⟩
  else ⟨d.year - 1, 12, 31⟩

/-- Days in the months of year `y` strictly before month `m`. -/
def daysBeforeMonth (y m : Nat) : Nat :=
  (List.range (m - 1)).foldl (fun a i => a + daysInMonth y (i + 1)) 0

/-- `date.toordinal()`: proleptic Gregorian ordinal, `0001-01-01` is day 1. -/
def toordinal (d : Date) : Nat :=
  365 * (d.year - 1) + ((d.year - 1) / 4 - (d.year - 1) / 100 + (d.year - 1) / 400)
    + daysBeforeMonth d.year d.month + d.day

/-- `date.weekday()`: Monday = 0 .. Sunday = 6. -/
def pyWeekday (d : Date) : Nat :=
  (toordinal d + 6) % 7

/-- Zero-pad a number to two digits. -/
def pad2 (n : Nat) : String :=
  if n < 10 then "0" ++ toString n else toString n

/-- Zero-pad a number to four digits. -/
def pad4 (n : Nat) : String :=
  if n < 10 then "000" ++ toString n
  else if n < 100 then "00" ++ toString n
  else if n < 1000 then "0" ++ toString n
  else toString n

/-- `d.strftime('%Y-%m-%d')`. -/
def strftimeYmd (d : Date) : String :=
  pad4 d.year ++ "-" ++ pad2 d.month ++ "-" ++ pad2 d.day

/-- All characters are decimal digits. -/
def allDigits (cs : List Char) : Bool :=
  cs.all (fun c => c.isDigit)

/-- Numeric value of a digit list, most significant first. -/
def digitsToNat (cs : List Char) : Nat :=
  cs.foldl (fun a c => 10 * a + (c.toNat - '0'.toNat)) 0

/-- `datetime.strptime(s, '%Y-%m-%d').date()`, `none` standing for the
`ValueError` CPython raises.  CPython compiles the format to the regex
`\d\d\d\d-(1[0-2]|0[1-9]|[1-9])-(3[01]|[12]\d|0[1-9]|[1-9])`, requires the
match to consume the whole string, and then builds a `date`, which checks
`1 <= year`, `1 <= month <= 12` and `1 <= day <= daysInMonth`.  On strings
split at the two `-` separators this is equivalent to: exactly three
fields; the year field exactly 4 digits; month and day fields 1 or 2
digits; and the numeric values in range (a field like `123` or `1x` makes
the regex mismatch the separator and fail). -/
def strptimeYmd (s : String) : Option Date :=
  match splitOnChar '-' s.data with
  | [ys, ms, ds] =>
    if ys.length = 4 ∧ allDigits ys ∧
        1 ≤ ms.length ∧ ms.length ≤ 2 ∧ allDigits ms ∧
        1 ≤ ds.length ∧ ds.length ≤ 2 ∧ allDigits ds then
      let y := digitsToNat ys
      let m := digitsToNat ms
      let d := digitsToNat ds
      if 1 ≤ y ∧ 1 ≤ m ∧ m ≤ 12 ∧ 1 ≤ d ∧ d ≤ daysInMonth y m then
        some ⟨y, m, d⟩
      else none
    else none
  | _ => none

/-! ## `check_dates` -/

/-- Python truthiness of an optional string argument: `not start` is true
when the argument is `None` or the empty string. -/
def isFalsy : Option String → Bool
  | none => true
  | some s => s == ""

/-- `datetime.min` (its calendar date). -/
def datetime_min : Date := ⟨1, 1, 1⟩

/-- A value returned by `check_dates`: the no-date-filter branch returns
`datetime` objects, every other branch returns `%Y-%m-%d` strings. -/
inductive DateVal where
  | dt (d : Date)
  | str (s : String)
deriving DecidableEq, Repr

/-- The date-resolution part of `check_dates` (lines up to the logging of
the inclusive range): the early `datetime.min, datetime.now()` return is
`Sum.inl`; otherwise the inclusive `(start, end)` strings are `Sum.inr`.
When `start` is falsy and yesterday is not a Sunday, `start` becomes
yesterday and `end` keeps its argument value; when yesterday is a Sunday,
`start` becomes yesterday minus two days and `end` is overwritten with
yesterday.  Afterwards a falsy `end` is replaced by `start`. -/
def resolve_dates (startArg endArg : Option String) (nodatefilter : Bool)
    (today : Date) : Sum (Date × Date) (String × String) :=
  if isFalsy startArg && nodatefilter then Sum.inl (datetime_min, today)
  else
    let se : String × Option String :=
      if isFalsy startArg then
        let yesterday := subOneDay today
        if pyWeekday yesterday ≠ 6 then (strftimeYmd yesterday, endArg)
        else (strftimeYmd (subOneDay (subOneDay yesterday)),
              some (strftimeYmd yesterday))
      else (startArg.getD "", endArg)
    Sum.inr (se.1, if isFalsy se.2 then se.1 else se.2.getD "")

/-- `check_dates(start, end, nodatefilter)` with the current date passed
explicitly.  After resolution, `end` is parsed with
`strptime(end, '%Y-%m-%d')` (a failure is the `ValueError` / spec
`InvalidDateError`, modelled as `Except.error ()`), advanced by one day and
formatted back; `start` is returned as the resolved string, unparsed. -/
def check_dates (startArg endArg : Option String) (nodatefilter : Bool)
    (today : Date) : Except Unit (DateVal × DateVal) :=
  match resolve_dates startArg endArg nodatefilter today with
  | Sum.inl (a, b) => Except.ok (DateVal.dt a, DateVal.dt b)
  | Sum.inr (s, e) =>
    match strptimeYmd e with
    | none => Except.error ()
    | some d => Except.ok (DateVal.str s, DateVal.str (strftimeYmd (addOneDay d)))

/-! ## `modified_bugs`

`searchTasks` results are external; a query result enters the model as a
`List LPTask` in the order the paginated collection yields it.  The three
dict comprehensions `{task.self_link: task for task in ...}` build Python
dicts keyed by `self_link`; we model a dict as an association list in
insertion order, a duplicate key overwriting the stored value in place, as
Python does.  The final `bugs` value is a Python `set` of freshly created
`Task` objects — all distinct, iterated in some order — so a list of views,
one per entry of `bugs_in_range`, represents it. -/

structure LPTask where
  self_link : String
  title : String
  status : String
deriving DecidableEq, Repr

/-- A Python dict keyed by `self_link`, as an insertion-ordered
association list. -/
abbrev LPDict := List (String × LPTask)

/-- `d[k] = v`: overwrite in place when the key exists, else append. -/
def dictInsert (d : LPDict) (k : String) (v : LPTask) : LPDict :=
  if d.any (fun p => p.1 == k) then
    d.map (fun p => if p.1 == k then (k, v) else p)
  else d ++ [(k, v)]

/-- `{task.self_link: task for task in ts}`. -/
def dictBySelfLink (ts : List LPTask) : LPDict :=
  ts.foldl (fun d t => dictInsert d t.self_link t) []

/-- `k in d` on a Python dict. -/
def containsKey (d : LPDict) (k : String) : Bool :=
  d.any (fun p => p.1 == k)

/-- `Task.create_from_launchpadlib_object(task, subscribed=...)`: the view
the script builds for each bug in range. -/
structure TaskView where
  obj : LPTask
  subscribed : Bool
deriving DecidableEq, Repr

/-- `modified_bugs(start_date, end_date, lpname, bugsubscriber)` with the
three query snapshots passed explicitly: `bugs_since_start` and
`bugs_since_end` are the results of the two `modified_since` searches
(whose filter is `bug_subscriber` in `bugsubscriber` mode, else
`structural_subscriber`), and `already_sub_raw` is the result of the third
search (structural and bug subscriber combined), which `bugsubscriber`
mode never issues (`already_sub_since_start = {}`). -/
def modified_bugs (bugs_since_start bugs_since_end already_sub_raw : List LPTask)
    (bugsubscriber : Bool) : List TaskView :=
  let already_sub_since_start : LPDict :=
    if bugsubscriber then [] else dictBySelfLink already_sub_raw
  let dStart := dictBySelfLink bugs_since_start
  let dEnd := dictBySelfLink bugs_since_end
  let bugs_in_range := dStart.filter (fun p => ¬ containsKey dEnd p.1)
  bugs_in_range.map (fun p => ⟨p.2, containsKey already_sub_since_start p.1⟩)

end UST

namespace UST

/-! ## Dictionary lemmas -/

theorem containsKey_iff {d : LPDict} {k : String} :
    containsKey d k = true ↔ k ∈ d.map Prod.fst := by
  simp [containsKey, List.any_eq_true, List.mem_map]

theorem map_fst_dictInsert (d : LPDict) (k : String) (v : LPTask) :
    (dictInsert d k v).map Prod.fst =
      if containsKey d k then d.map Prod.fst else d.map Prod.fst ++ [k] := by
  unfold dictInsert containsKey
  split
  case isTrue h =>
    rw [List.map_map]
    apply List.map_congr_left
    intro p _
    by_cases hc : (p.1 == k) = true
    · simp only [Function.comp, hc, if_pos]
      exact (beq_iff_eq.mp hc).symm
    · simp [Function.comp, hc]
  case isFalse h =>
    simp

theorem mem_map_fst_dictFold (ts : List LPTask) :
    ∀ (d : LPDict) (k : String),
      k ∈ ((ts.foldl (fun d t => dictInsert d t.self_link t) d).map Prod.fst) ↔
        k ∈ d.map Prod.fst ∨ ∃ t ∈ ts, t.self_link = k := by
  induction ts with
  | nil => intro d k; simp
  | cons t ts ih =>
    intro d k
    rw [List.foldl_cons, ih, map_fst_dictInsert]
    by_cases hc : containsKey d t.self_link = true
    · rw [if_pos hc]
      rw [containsKey_iff] at hc
      constructor
      · rintro (h | ⟨u, hu, he⟩)
        · exact Or.inl h
        · exact Or.inr ⟨u, List.mem_cons_of_mem _ hu, he⟩
      · rintro (h | ⟨u, hu, he⟩)
        · exact Or.inl h
        · rcases List.mem_cons.mp hu with rfl | hu'
          · exact Or.inl (he ▸ hc)
          · exact Or.inr ⟨u, hu', he⟩
    · rw [if_neg hc]
      constructor
      · rintro (h | ⟨u, hu, he⟩)
        · rcases List.mem_append.mp h with h' | h'
          · exact Or.inl h'
          · exact Or.inr ⟨t, List.mem_cons_self .., (List.mem_singleton.mp h').symm⟩
        · exact Or.inr ⟨u, List.mem_cons_of_mem _ hu, he⟩
      · rintro (h | ⟨u, hu, he⟩)
        · exact Or.inl (List.mem_append.mpr (Or.inl h))
        · rcases List.mem_cons.mp hu with rfl | hu'
          · exact Or.inl (List.mem_append.mpr (Or.inr (List.mem_singleton.mpr he.symm)))
          · exact Or.inr ⟨u, hu', he⟩

theorem nodup_map_fst_dictFold (ts : List LPTask) :
    ∀ d : LPDict, (d.map Prod.fst).Nodup →
      ((ts.foldl (fun d t => dictInsert d t.self_link t) d).map Prod.fst).Nodup := by
  induction ts with
  | nil => intro d h; simpa using h
  | cons t ts ih =>
    intro d h
    rw [List.foldl_cons]
    apply ih
    rw [map_fst_dictInsert]
    by_cases hc : containsKey d t.self_link = true
    · rwa [if_pos hc]
    · rw [if_neg hc]
      have hk : t.self_link ∉ d.map Prod.fst := fun hmem =>
        hc (containsKey_iff.mpr hmem)
      simp [List.nodup_append, h, hk]

theorem self_link_entries_dictInsert {d : LPDict} {k : String} {v : LPTask}
    (hv : v.self_link = k) (h : ∀ p ∈ d, p.2.self_link = p.1) :
    ∀ p ∈ dictInsert d k v, p.2.self_link = p.1 := by
  unfold dictInsert
  split
  · intro p hp
    rcases List.mem_map.mp hp with ⟨q, hq, rfl⟩
    by_cases hc : (q.1 == k) = true
    · rw [if_pos hc]; exact hv
    · rw [if_neg hc]; exact h q hq
  · intro p hp
    rcases List.mem_append.mp hp with hp' | hp'
    · exact h p hp'
    · rw [List.mem_singleton.mp hp']; exact hv

theorem self_link_entries_dictFold (ts : List LPTask) :
    ∀ d : LPDict, (∀ p ∈ d, p.2.self_link = p.1) →
      ∀ p ∈ ts.foldl (fun d t => dictInsert d t.self_link t) d, p.2.self_link = p.1 := by
  induction ts with
  | nil => intro d h; simpa using h
  | cons t ts ih =>
    intro d h
    rw [List.foldl_cons]
    exact ih _ (self_link_entries_dictInsert rfl h)

theorem mem_map_fst_dictBySelfLink {ts : List LPTask} {k : String} :
    k ∈ (dictBySelfLink ts).map Prod.fst ↔ ∃ t ∈ ts, t.self_link = k := by
  have h := mem_map_fst_dictFold ts [] k
  simpa [dictBySelfLink] using h

theorem nodup_map_fst_dictBySelfLink (ts : List LPTask) :
    ((dictBySelfLink ts).map Prod.fst).Nodup :=
  nodup_map_fst_dictFold ts [] (by simp)

theorem self_link_entries_dictBySelfLink (ts : List LPTask) :
    ∀ p ∈ dictBySelfLink ts, p.2.self_link = p.1 :=
  self_link_entries_dictFold ts [] (by simp)

theorem map_self_link_eq_map_fst (l : LPDict) (h : ∀ p ∈ l, p.2.self_link = p.1) :
    l.map (fun p => p.2.self_link) = l.map Prod.fst :=
  List.map_congr_left h

end UST

namespace UST

theorem modified_bugs_eq (qStart qEnd qSub : List LPTask) (bs : Bool) :
    modified_bugs qStart qEnd qSub bs =
      ((dictBySelfLink qStart).filter
        (fun p => ¬ containsKey (dictBySelfLink qEnd) p.1)).map
        (fun p => ⟨p.2, containsKey
          (if bs then [] else dictBySelfLink qSub) p.1⟩) := rfl

/-- C1: for every trio of query snapshots and either subscriber mode,
`modified_bugs` returns exactly the set difference keyed by `self_link`:
a view with a given `self_link` is in the result iff that link occurs
among the bugs-modified-since-start tasks and not among the
bugs-modified-since-end tasks, and the result mentions each `self_link`
at most once however often it occurs in the query results. -/
theorem modified_bugs_set_difference (qStart qEnd qSub : List LPTask) (bs : Bool) :
    (∀ link : String,
      (∃ t ∈ modified_bugs qStart qEnd qSub bs, t.obj.self_link = link) ↔
        ((∃ u ∈ qStart, u.self_link = link) ∧ ¬ ∃ u ∈ qEnd, u.self_link = link)) ∧
    ((modified_bugs qStart qEnd qSub bs).map (fun t => t.obj.self_link)).Nodup := by
  rw [modified_bugs_eq]
  constructor
  · intro link
    constructor
    · rintro ⟨t, ht, rfl⟩
      simp only [List.mem_map] at ht
      obtain ⟨p, hp, rfl⟩ := ht
      have hpd : p ∈ dictBySelfLink qStart := List.mem_of_mem_filter hp
      have hkey : p.2.self_link = p.1 := self_link_entries_dictBySelfLink qStart p hpd
      have hfilter := (List.mem_filter.mp hp).2
      simp only [decide_eq_true_eq] at hfilter
      constructor
      · apply mem_map_fst_dictBySelfLink.mp
        rw [hkey]
        exact List.mem_map_of_mem Prod.fst hpd
      · intro hend
        apply hfilter
        apply containsKey_iff.mpr
        apply mem_map_fst_dictBySelfLink.mpr
        obtain ⟨u, hu, hul⟩ := hend
        exact ⟨u, hu, by rw [hul]; exact hkey⟩
    · rintro ⟨hstart, hend⟩
      have h1 : link ∈ (dictBySelfLink qStart).map Prod.fst :=
        mem_map_fst_dictBySelfLink.mpr hstart
      rcases List.mem_map.mp h1 with ⟨p, hp, rfl⟩
      have hkey : p.2.self_link = p.1 := self_link_entries_dictBySelfLink qStart p hp
      have hnotend : ¬ containsKey (dictBySelfLink qEnd) p.1 = true := by
        intro hck
        exact hend (mem_map_fst_dictBySelfLink.mp (containsKey_iff.mp hck))
      refine ⟨⟨p.2, containsKey
        (if bs then [] else dictBySelfLink qSub) p.1⟩, ?_, hkey⟩
      simp only [List.mem_map]
      refine ⟨p, List.mem_filter.mpr ⟨hp, ?_⟩, rfl⟩
      simpa using hnotend
  · rw [List.map_map]
    have h1 : ∀ p ∈ (dictBySelfLink qStart).filter
        (fun p => ¬ containsKey (dictBySelfLink qEnd) p.1),
        p.2.self_link = p.1 := fun p hp =>
      self_link_entries_dictBySelfLink qStart p (List.mem_of_mem_filter hp)
    have h2 : ((fun t : TaskView => t.obj.self_link) ∘
        (fun p : String × LPTask => (⟨p.2, containsKey
          (if bs then [] else dictBySelfLink qSub) p.1⟩ : TaskView))) =
        fun p : String × LPTask => p.2.self_link := rfl
    rw [h2, map_self_link_eq_map_fst _ h1]
    exact (nodup_map_fst_dictBySelfLink qStart).sublist
      ((List.filter_sublist _).map Prod.fst)

/-- C8: in `bugsubscriber` mode the third (already-subscribed) query is
replaced by the empty dict, so every view returned by `modified_bugs` has
`subscribed = false`, whatever the query snapshots contain. -/
theorem modified_bugs_bugsubscriber_not_subscribed (qStart qEnd qSub : List LPTask)
    (t : TaskView) (h : t ∈ modified_bugs qStart qEnd qSub true) :
    t.subscribed = false := by
  rw [modified_bugs_eq] at h
  simp only [List.mem_map] at h
  obtain ⟨p, _, rfl⟩ := h
  rfl

/-- Witness for C8 at a concrete snapshot: one bug modified in range, with
the team listed as already subscribed; the returned view is still not
marked subscribed. -/
theorem modified_bugs_bugsubscriber_not_subscribed_witness :
    TaskView.subscribed ⟨⟨"l1", "t1", "New"⟩, false⟩ = false :=
  modified_bugs_bugsubscriber_not_subscribed
    [⟨"l1", "t1", "New"⟩] [] [⟨"l1", "t1", "New"⟩]
    ⟨⟨"l1", "t1", "New"⟩, false⟩ (by decide)

end UST

namespace UST

/-! ## Date lemmas -/

theorem strftimeYmd_ne_empty (d : Date) : (strftimeYmd d == "") = false := by
  rw [beq_eq_false_iff_ne]
  intro h
  have hlen := congrArg String.length h
  simp only [strftimeYmd, String.length_append] at hlen
  rw [show ("-" : String).length = 1 from rfl,
    show ("" : String).length = 0 from rfl] at hlen
  omega

theorem resolve_dates_inl {startArg endArg : Option String} {ndf : Bool}
    {today : Date} {a b : Date}
    (h : resolve_dates startArg endArg ndf today = Sum.inl (a, b)) :
    (isFalsy startArg && ndf) = true := by
  unfold resolve_dates at h
  by_cases hc : (isFalsy startArg && ndf) = true
  · exact hc
  · rw [if_neg (by simpa using hc)] at h
    simp at h

/-- C5: with `nodatefilter` set and `start` absent, `check_dates` returns
the pair `(datetime.min, now)` unconditionally — no date filter — whatever
the `end` argument and whatever weekday `now` falls on. -/
theorem check_dates_nodatefilter (endArg : Option String) (today : Date) :
    check_dates none endArg true today =
      Except.ok (DateVal.dt datetime_min, DateVal.dt today) := rfl

/-- C4 corrected: with both dates absent and no `nodatefilter`, the
resolved inclusive range is a single day — yesterday — unless yesterday
was a Sunday, in which case `start` is yesterday minus two days (the
Friday before, three days before the current date, not the Saturday two
days before) and `end` is yesterday. -/
theorem resolve_dates_default (today : Date) :
    resolve_dates none none false today =
      (if pyWeekday (subOneDay today) ≠ 6 then
        Sum.inr (strftimeYmd (subOneDay today), strftimeYmd (subOneDay today))
      else
        Sum.inr (strftimeYmd (subOneDay (subOneDay (subOneDay today))),
                 strftimeYmd (subOneDay today))) := by
  unfold resolve_dates
  rw [if_neg (by simp [isFalsy])]
  by_cases hw : pyWeekday (subOneDay today) ≠ 6
  · rw [if_pos hw, if_pos hw]
    simp [isFalsy]
  · rw [if_neg hw, if_neg hw]
    simp [isFalsy, strftimeYmd_ne_empty]

/-- Counterexample to C4 as stated: on 2026-10-12, a Monday (so yesterday,
2026-10-11, was a Sunday), the resolved range starts on Friday 2026-10-09
— yesterday minus two days — not on Saturday 2026-10-10 (two days before
the current date) as the claim asserts, and `check_dates` then returns
that Friday as the start string. -/
theorem resolve_dates_monday_cex :
    pyWeekday ⟨2026, 10, 11⟩ = 6 ∧
    resolve_dates none none false ⟨2026, 10, 12⟩ =
      Sum.inr ("2026-10-09", "2026-10-11") ∧
    check_dates none none false ⟨2026, 10, 12⟩ =
      Except.ok (DateVal.str "2026-10-09", DateVal.str "2026-10-12") ∧
    ("2026-10-09" : String) ≠ "2026-10-10" := by
  refine ⟨by decide, by decide, rfl, by decide⟩

end UST

namespace UST

/-- C2 corrected: on every path that reaches the adjustment — whenever a
start date was supplied, or `nodatefilter` is off — a successful
`check_dates` run returns as its end value the resolved end string parsed
and advanced by exactly one calendar day (the inclusive end becomes an
exclusive bound).  The `nodatefilter`-with-absent-start path is excluded:
there `(datetime.min, now)` is returned with no day added. -/
theorem check_dates_adds_one_day (startArg endArg : Option String) (ndf : Bool)
    (today : Date) (r : DateVal × DateVal)
    (hpath : (isFalsy startArg && ndf) = false)
    (hok : check_dates startArg endArg ndf today = Except.ok r) :
    ∃ s e d, resolve_dates startArg endArg ndf today = Sum.inr (s, e) ∧
      strptimeYmd e = some d ∧
      r = (DateVal.str s, DateVal.str (strftimeYmd (addOneDay d))) := by
  unfold check_dates at hok
  cases hres : resolve_dates startArg endArg ndf today with
  | inl ab =>
    rw [hres] at hok
    have := resolve_dates_inl hres
    rw [this] at hpath
    exact absurd hpath (by simp)
  | inr se =>
    obtain ⟨s0, e0⟩ := se
    rw [hres] at hok
    dsimp only at hok
    cases hse : strptimeYmd e0 with
    | none => rw [hse] at hok; exact absurd hok (by simp)
    | some d =>
      rw [hse] at hok
      simp only [Except.ok.injEq] at hok
      exact ⟨s0, e0, d, rfl, hse, hok.symm⟩

/-- Witness for C2 (corrected): a supplied single date `2016-07-15` is
returned with end advanced to `2016-07-16`. -/
theorem check_dates_adds_one_day_witness :
    ∃ s e d, resolve_dates (some "2016-07-15") none false ⟨2020, 1, 1⟩ =
        Sum.inr (s, e) ∧
      strptimeYmd e = some d ∧
      ((DateVal.str "2016-07-15", DateVal.str "2016-07-16") : DateVal × DateVal) =
        (DateVal.str s, DateVal.str (strftimeYmd (addOneDay d))) :=
  check_dates_adds_one_day (some "2016-07-15") none false ⟨2020, 1, 1⟩
    (DateVal.str "2016-07-15", DateVal.str "2016-07-16") (by decide) rfl

/-- Counterexample to C2 as stated: on the `nodatefilter` path with start
absent, `check_dates` returns `datetime.now()` itself as the end value —
no calendar day is added on that path (adding one would have produced a
different date). -/
theorem check_dates_nodatefilter_no_day_added_cex :
    check_dates none none true ⟨2026, 10, 12⟩ =
      Except.ok (DateVal.dt ⟨1, 1, 1⟩, DateVal.dt ⟨2026, 10, 12⟩) ∧
    addOneDay ⟨2026, 10, 12⟩ ≠ ⟨2026, 10, 12⟩ :=
  ⟨rfl, by decide⟩

/-- C3 corrected: when a start date is supplied, `check_dates` fails (the
`ValueError` behind the spec's `InvalidDateError`) exactly when the
effective end string — the supplied end if truthy, else the start string —
does not parse as `%Y-%m-%d`.  The start string itself is never parsed, so
a malformed start with an absent end still fails (it becomes the effective
end), but a malformed start next to a well-formed end is passed through
untouched. -/
theorem check_dates_invalid_date (startArg endArg : Option String) (ndf : Bool)
    (today : Date) (h : isFalsy startArg = false) :
    (check_dates startArg endArg ndf today = Except.error ()) ↔
      strptimeYmd (if isFalsy endArg then startArg.getD ""
        else endArg.getD "") = none := by
  unfold check_dates resolve_dates
  rw [h]
  simp only [Bool.false_and, Bool.false_eq_true, if_false]
  cases hp : strptimeYmd (if isFalsy endArg then startArg.getD ""
      else endArg.getD "") with
  | none => simp [hp]
  | some d => simp [hp]

/-- Witness for C3 (corrected): a malformed start with an absent end makes
`check_dates` fail. -/
theorem check_dates_invalid_date_witness :
    check_dates (some "notadate") none false ⟨2020, 1, 1⟩ = Except.error () :=
  (check_dates_invalid_date (some "notadate") none false ⟨2020, 1, 1⟩
    (by decide)).mpr (by decide)

/-- Counterexample to C3 as stated: the start string `"garbage"` does not
parse as `%Y-%m-%d`, yet with the well-formed end `"2016-07-15"` supplied,
`check_dates` returns normally, passing the malformed start through. -/
theorem check_dates_malformed_start_ok_cex :
    strptimeYmd "garbage" = none ∧
    check_dates (some "garbage") (some "2016-07-15") false ⟨2026, 10, 12⟩ =
      Except.ok (DateVal.str "garbage", DateVal.str "2016-07-16") :=
  ⟨by decide, rfl⟩

end UST

namespace UST

/-- C6: on the title `'Bug #123456 in thunderbird (Ubuntu): "Crashes on
startup"'` the derived fields are `number = "123456"` (space-token 2 with
`#` stripped), `src = "thunderbird"` (space-token 4), and `short_title =
"Crashes on startup"` (tokens from index 5 on, joined by spaces, quote
characters stripped). -/
theorem task_fields_example :
    task_number "Bug #123456 in thunderbird (Ubuntu): \"Crashes on startup\"" =
      "123456" ∧
    task_src "Bug #123456 in thunderbird (Ubuntu): \"Crashes on startup\"" =
      "thunderbird" ∧
    task_short_title "Bug #123456 in thunderbird (Ubuntu): \"Crashes on startup\"" =
      "Crashes on startup" := by
  refine ⟨by decide, by decide, by decide⟩

/-- C9: for every title, `url` is the constant root
`https://bugs.launchpad.net/bugs/` followed by `number`, and `shortlink`
is the constant root `LP: #` followed by the same `number`, so the two
always reference the same bug number. -/
theorem task_url_shortlink_agree (title : String) :
    task_url title = "https://bugs.launchpad.net/bugs/" ++ task_number title ∧
    task_shortlink title = "LP: #" ++ task_number title :=
  ⟨rfl, rfl⟩

/-- C10: `short_title` deletes every double-quote character of the joined
tail tokens, interior ones included — on a title whose summary is
`say "hi" now` the result is `say hi now` — and in general the result of
`short_title` never contains a double quote. -/
theorem task_short_title_removes_all_quotes :
    task_short_title "Bug #1 in x (Ubuntu): say \"hi\" now" = "say hi now" ∧
    ∀ title : String,
      ((task_short_title title).data.all (fun c => c != '"')) = true := by
  constructor
  · decide
  · intro title
    simp only [task_short_title, pyRemoveChar, List.all_eq_true, List.mem_filter]
    intro c hc
    simpa using hc.2

end UST

namespace UST

set_option maxRecDepth 8000

/-- Counterexample to C7 as stated: the shortlink field is
`BUG_NUMBER_LENGTH + len('LP: #') = 12` characters wide, not 13, and the
status is rendered in parentheses as `*(<status>)`.  On the example task
(number `123456`, subscribed, status `Confirmed`) the rendered line agrees
with neither a 13-wide field followed by `' - '` and `*Confirmed`, nor a
12-wide field followed by `' - '` and a parenthesis-free `*Confirmed`. -/
theorem compose_pretty_width_cex :
    compose_pretty "Bug #123456 in thunderbird (Ubuntu): \"Crashes on startup\""
        "Confirmed" true true =
      "LP: #123456  - *(Confirmed)     [thunderbird]    - Crashes on startup" ∧
    ("LP: #123456  - *(Confirmed)     [thunderbird]    - Crashes on startup").take 26 ≠
      ljust 13 "LP: #123456" ++ " - " ++ "*Confirmed" ∧
    ("LP: #123456  - *(Confirmed)     [thunderbird]    - Crashes on startup").take 25 ≠
      ljust 12 "LP: #123456" ++ " - " ++ "*Confirmed" := by
  refine ⟨by decide, by decide, by decide⟩

/-- C7 corrected: for a subscribed task whose number is `123456`,
`compose_pretty` with shortlinks starts with `LP: #123456` left-justified
in a field of exactly 12 characters (`BUG_NUMBER_LENGTH + len('LP: #')`),
followed by the literal `' - '` and the subscribed marker with the status
in parentheses, `*(<status>)`. -/
theorem compose_pretty_shortlink_layout (title status : String)
    (h : task_number title = "123456") :
    ∃ rest, compose_pretty title status true true =
      "LP: #123456  - *(" ++ status ++ rest := by
  have hs : task_shortlink title = "LP: #123456" := by
    unfold task_shortlink
    rw [h]
    decide
  refine ⟨")" ++ String.mk (List.replicate
      (16 - ("*" ++ "(" ++ status ++ ")").length) ' ') ++
    " " ++ ljust 16 ("[" ++ task_src title ++ "]") ++ " - " ++
    task_short_title title, ?_⟩
  have e2 : ljust (BUG_NUMBER_LENGTH + SHORTLINK_ROOT.length) "LP: #123456" =
      "LP: #123456 " := by decide
  have e1 : ("LP: #123456  - *(" : String) =
      "LP: #123456 " ++ " - " ++ ("*" ++ "(") := by decide
  rw [e1]
  simp only [compose_pretty, hs, if_true]
  rw [e2]
  simp only [ljust, String.append_assoc]

/-- Witness for C7 (corrected) on the concrete example task with status
`Confirmed`. -/
theorem compose_pretty_shortlink_layout_witness :
    ∃ rest, compose_pretty
        "Bug #123456 in thunderbird (Ubuntu): \"Crashes on startup\""
        "Confirmed" true true =
      "LP: #123456  - *(" ++ "Confirmed" ++ rest :=
  compose_pretty_shortlink_layout
    "Bug #123456 in thunderbird (Ubuntu): \"Crashes on startup\""
    "Confirmed" (by decide)

end UST
